import Mathlib

set_option maxHeartbeats 1000000

namespace FlexiTracker

/-!
Shallow embedding of the flexi-tracker peer-sync engine.

Typed data model translated from the TypeScript declarations in
`types/flexi-tracker.ts`.  Conventions of the embedding:
* JS `null` and `undefined` optional fields are both embedded as `Option.none`
  (no claim in scope distinguishes them);
* JS numbers are embedded as integers (no claim in scope depends on
  fractional or NaN behavior);
* a JS `Record<string, T>` is embedded as an insertion-ordered association
  list with unique keys, as runtime object keys are.
-/

inductive DayType where
  | normal
  | sick
  | sickHalf
  | holiday
  | holidayHalf
  | flexi
  | flexiHalf
deriving DecidableEq, Repr

structure DayEntry where
  startTime : Option String := none
  endTime : Option String := none
  breakMinutes : Option Int := none
  dayType : Option DayType := none
deriving DecidableEq, Repr

structure Settings where
  workingDays : List Int
  expectedMinutesPerDay : Int
  weekStartsOn : Int
  nonWorkingDayDisplay : String
  nonWorkingDayRate : Int
deriving DecidableEq, Repr

structure Adjustment where
  id : String
  date : String
  minutes : Int
  note : String
deriving DecidableEq, Repr

structure LeaveBalance where
  totalDays : Int
  periodStart : String
  periodEnd : String
deriving DecidableEq, Repr

abbrev EntryMap := List (String × DayEntry)

structure SyncPayload where
  entries : EntryMap
  adjustments : List Adjustment
  settings : Settings
  leaveBalance : Option LeaveBalance := none
  timestamp : Int
deriving DecidableEq, Repr

/-- The source fields are named `local`/`remote`; `local` is a Lean keyword,
so the embedding uses `localEntry`/`remoteEntry`. -/
structure ConflictEntry where
  date : String
  localEntry : DayEntry
  remoteEntry : DayEntry
deriving DecidableEq, Repr

/-- The source fields are named `local`/`remote`; `local` is a Lean keyword,
so the embedding uses `localSettings`/`remoteSettings`. -/
structure SettingsConflict where
  localSettings : Settings
  remoteSettings : Settings
deriving DecidableEq, Repr

structure SyncResult where
  mergedEntries : EntryMap
  mergedAdjustments : List Adjustment
  mergedSettings : Settings
  mergedLeaveBalance : Option LeaveBalance
  entryConflicts : List ConflictEntry
  settingsConflict : Option SettingsConflict
deriving DecidableEq, Repr

/-- JS property read `record[date]` on an entries record: the binding for the
key (runtime object keys are unique, so the first binding is the only one);
`undefined` (here `none`) when absent. -/
def lookupEntry : EntryMap → String → Option DayEntry
  | [], _ => none
  | (k, v) :: rest, key => if k = key then some v else lookupEntry rest key

/-- Helper for `dedupFirst`: drop the elements already seen. -/
def dedupFirstAux (seen : List String) : List String → List String
  | [] => []
  | x :: xs =>
    if x ∈ seen then dedupFirstAux seen xs
    else x :: dedupFirstAux (x :: seen) xs

/-- Element list of `new Set(xs)` in iteration order: the first occurrence of
each element, in insertion order. -/
def dedupFirst (l : List String) : List String := dedupFirstAux [] l

/-! ## Merge engine (`lib/sync/merge-strategy.ts`) -/

/-- `entriesAreEqual`: field-wise `===` comparison of two day entries. -/
def entriesAreEqual (a b : DayEntry) : Bool :=
  decide (a.startTime = b.startTime) && decide (a.endTime = b.endTime) &&
    decide (a.breakMinutes = b.breakMinutes) && decide (a.dayType = b.dayType)

/-- JS falsiness of an optional string field: `undefined`, `null` or `""`. -/
def strOptFalsy : Option String → Bool
  | none => true
  | some s => decide (s = "")

/-- JS falsiness of an optional numeric field: `undefined` or `0`. -/
def numOptFalsy : Option Int → Bool
  | none => true
  | some n => decide (n = 0)

/-- `entryIsEmpty`: a missing entry is empty; a present entry is empty iff
all four fields are falsy.  A present `dayType` is one of seven nonempty
string constants, hence always truthy, so the `!entry.dayType` test of the
source is `dayType = none` here. -/
def entryIsEmpty : Option DayEntry → Bool
  | none => true
  | some e =>
    strOptFalsy e.startTime && strOptFalsy e.endTime &&
      numOptFalsy e.breakMinutes && decide (e.dayType = none)

/-- `new Set([...Object.keys(local), ...Object.keys(remote)])` in iteration
order. -/
def allDates (localEntries remoteEntries : EntryMap) : List String :=
  dedupFirst (localEntries.map Prod.fst ++ remoteEntries.map Prod.fst)

/-- Loop body of `detectConflicts` at one date: a conflict is recorded iff
both sides are non-empty (hence present) and not field-wise equal. -/
def conflictAt (localEntries remoteEntries : EntryMap) (date : String) :
    Option ConflictEntry :=
  match lookupEntry localEntries date, lookupEntry remoteEntries date with
  | some le, some re =>
    if entryIsEmpty (some le) = false && entryIsEmpty (some re) = false &&
        entriesAreEqual le re = false then
      some { date := date, localEntry := le, remoteEntry := re }
    else none
  | _, _ => none

/-- `detectConflicts`: one pass over the union of date keys, in set-iteration
order, collecting the conflicting dates. -/
def detectConflicts (localEntries remoteEntries : EntryMap) : List ConflictEntry :=
  (allDates localEntries remoteEntries).filterMap (conflictAt localEntries remoteEntries)

/-- Loop body of `mergeNonConflicting` at one date: conflicting dates are
skipped, otherwise the non-empty side (the local one when both are
non-empty) is kept, and nothing is emitted when both sides are empty. -/
def mergedEntryAt (localEntries remoteEntries : EntryMap) (conflictDates : List String)
    (date : String) : Option DayEntry :=
  if date ∈ conflictDates then none
  else
    let le := lookupEntry localEntries date
    let re := lookupEntry remoteEntries date
    if entryIsEmpty le = false && entryIsEmpty re = true then le
    else if entryIsEmpty le = true && entryIsEmpty re = false then re
    else if entryIsEmpty le = false && entryIsEmpty re = false then le
    else none

/-- `mergeNonConflicting`: the merged record, built by inserting the kept
entry for each date of the key union in set-iteration order. -/
def mergeNonConflicting (localEntries remoteEntries : EntryMap)
    (conflicts : List ConflictEntry) : EntryMap :=
  (allDates localEntries remoteEntries).filterMap fun date =>
    (mergedEntryAt localEntries remoteEntries (conflicts.map (fun c => c.date)) date).map
      (fun e => (date, e))

/-- One `Map.set` step on a JS `Map` seen as an insertion-ordered association
list: setting an existing key keeps its position and replaces its value, a
new key is appended. -/
def mapSet (m : List (String × Adjustment)) (k : String) (v : Adjustment) :
    List (String × Adjustment) :=
  if m.any (fun p => decide (p.1 = k)) then
    m.map (fun p => if p.1 = k then (k, v) else p)
  else m ++ [(k, v)]

/-- The comparator key of `mergeAdjustments`'s sort:
`new Date(a.date).getTime()` ascending.  On the `YYYY-MM-DD` date strings in
scope the timestamp order coincides with lexicographic string order, so the
embedding compares the date strings directly. -/
def dateLe (a b : Adjustment) : Prop := a.date ≤ b.date

instance : DecidableRel dateLe := fun a b => inferInstanceAs (Decidable (a.date ≤ b.date))

/-- `mergeAdjustments`: union by id (local pass first, then remote ids not
already present), then a stable ascending sort by date.  JS
`Array.prototype.sort` is stable and the output of a stable sort is uniquely
determined, so the stable insertion sort computes the same list. -/
def mergeAdjustments (localAdj remoteAdj : List Adjustment) : List Adjustment :=
  let m1 := localAdj.foldl (fun m adj => mapSet m adj.id adj) []
  let m2 := remoteAdj.foldl
    (fun m adj => if m.any (fun p => decide (p.1 = adj.id)) then m else m ++ [(adj.id, adj)])
    m1
  List.insertionSort dateLe (m2.map Prod.snd)

/-- `arraysEqual`: equal length and element-wise equal after sorting copies
of both sides.  Sorting both arrays by one fixed total order makes this a
multiset-equality test, so the JS default (string-order) sort and the
numeric sort used here decide the same predicate. -/
def arraysEqual (a b : List Int) : Bool :=
  decide (a.length = b.length) &&
    decide (List.insertionSort (· ≤ ·) a = List.insertionSort (· ≤ ·) b)

/-- `settingsAreEqual`: `arraysEqual` on workingDays, `===` elsewhere. -/
def settingsAreEqual (localS remoteS : Settings) : Bool :=
  arraysEqual localS.workingDays remoteS.workingDays &&
    decide (localS.expectedMinutesPerDay = remoteS.expectedMinutesPerDay) &&
    decide (localS.weekStartsOn = remoteS.weekStartsOn) &&
    decide (localS.nonWorkingDayDisplay = remoteS.nonWorkingDayDisplay) &&
    decide (localS.nonWorkingDayRate = remoteS.nonWorkingDayRate)

/-- `detectSettingsConflict`: `null` when structurally equal, otherwise both
full snapshots. -/
def detectSettingsConflict (localS remoteS : Settings) : Option SettingsConflict :=
  if settingsAreEqual localS remoteS then none
  else some { localSettings := localS, remoteSettings := remoteS }

/-- `mergeLeaveBalance`: prefer local when both sides define it, else
whichever side defines it (`local || remote`). -/
def mergeLeaveBalance : Option LeaveBalance → Option LeaveBalance → Option LeaveBalance
  | some lb, some _ => some lb
  | some lb, none => some lb
  | none, some rb => some rb
  | none, none => none

/-- `prepareSyncResult`: runs all merge steps and returns the sync result,
defaulting `mergedSettings` to the local settings. -/
def prepareSyncResult (localPayload remotePayload : SyncPayload) : SyncResult :=
  let entryConflicts := detectConflicts localPayload.entries remotePayload.entries
  { mergedEntries :=
      mergeNonConflicting localPayload.entries remotePayload.entries entryConflicts
    mergedAdjustments := mergeAdjustments localPayload.adjustments remotePayload.adjustments
    mergedSettings := localPayload.settings
    mergedLeaveBalance := mergeLeaveBalance localPayload.leaveBalance remotePayload.leaveBalance
    entryConflicts := entryConflicts
    settingsConflict := detectSettingsConflict localPayload.settings remotePayload.settings }

/-! ## JS runtime values and the protocol validators
(`lib/sync/sync-protocol.ts`)

The validators run on untrusted wire data (`unknown` in the source), so they
are embedded over a small model of JS runtime values. -/

inductive JSVal where
  | vUndefined
  | vNull
  | vBool (b : Bool)
  | vNum (n : Int)
  | vStr (s : String)
  | vArr (elems : List JSVal)
  | vObj (fields : List (String × JSVal))
deriving Repr

/-- `typeof v === "object"` (true for objects, arrays and `null`). -/
def typeofObject : JSVal → Bool
  | .vNull | .vArr _ | .vObj _ => true
  | _ => false

/-- JS truthiness. -/
def truthy : JSVal → Bool
  | .vUndefined => false
  | .vNull => false
  | .vBool b => b
  | .vNum n => decide (n ≠ 0)
  | .vStr s => decide (s ≠ "")
  | .vArr _ => true
  | .vObj _ => true

/-- `v != null` (loose): false exactly for `undefined` and `null`. -/
def notNullish : JSVal → Bool
  | .vUndefined | .vNull => false
  | _ => true

def lookupField : List (String × JSVal) → String → Option JSVal
  | [], _ => none
  | (k, v) :: rest, key => if k = key then some v else lookupField rest key

/-- Property read `v[key]`: object fields by name (runtime keys are unique,
so the first binding is the only one), array elements by numeric index,
`undefined` otherwise. -/
def getProp : JSVal → String → JSVal
  | .vObj fields, key => (lookupField fields key).getD .vUndefined
  | .vArr elems, key =>
    match key.toNat? with
    | some i => elems.getD i .vUndefined
    | none => .vUndefined
  | _, _ => .vUndefined

/-- `Object.keys`: field names of an object, index strings of an array,
empty otherwise. -/
def jsKeys : JSVal → List String
  | .vObj fields => fields.map Prod.fst
  | .vArr elems => (List.range elems.length).map toString
  | _ => []

/-- The regular expression `TIME_RE`, two digits, a colon, two digits. -/
def timeRe (s : String) : Bool :=
  match s.data with
  | [h1, h2, c, m1, m2] =>
    h1.isDigit && h2.isDigit && decide (c = ':') && m1.isDigit && m2.isDigit
  | _ => false

/-- The regular expression `DATE_KEY_RE`, `YYYY-MM-DD` shaped. -/
def dateKeyRe (s : String) : Bool :=
  match s.data with
  | [y1, y2, y3, y4, s1, m1, m2, s2, d1, d2] =>
    y1.isDigit && y2.isDigit && y3.isDigit && y4.isDigit && decide (s1 = '-') &&
      m1.isDigit && m2.isDigit && decide (s2 = '-') && d1.isDigit && d2.isDigit
  | _ => false

def validDayTypes : List String :=
  ["normal", "sick", "sick-half", "holiday", "holiday-half", "flexi", "flexi-half"]

def blockedKeys : List String := ["__proto__", "constructor", "prototype"]

def maxEntriesCount : Nat := 10000

def maxAdjustmentsCount : Nat := 5000

/-- `typeof v === "string" && TIME_RE.test(v)`. -/
def isTimeString : JSVal → Bool
  | .vStr s => timeRe s
  | _ => false

/-- `typeof v === "string" && DATE_KEY_RE.test(v)`. -/
def isDateKeyString : JSVal → Bool
  | .vStr s => dateKeyRe s
  | _ => false

/-- `typeof v === "number" && v >= 0`. -/
def isNonNegNum : JSVal → Bool
  | .vNum n => decide (0 ≤ n)
  | _ => false

/-- `typeof v === "string" && VALID_DAY_TYPES.has(v)`. -/
def isDayTypeString : JSVal → Bool
  | .vStr s => decide (s ∈ validDayTypes)
  | _ => false

def isString : JSVal → Bool
  | .vStr _ => true
  | _ => false

def isNumber : JSVal → Bool
  | .vNum _ => true
  | _ => false

/-- `typeof d === "number" && d >= 0 && d <= 6`, the workingDays element
check. -/
def isWeekdayNum : JSVal → Bool
  | .vNum n => decide (0 ≤ n) && decide (n ≤ 6)
  | _ => false

/-- `isValidDayEntry`: each present field must be well-formed. -/
def isValidDayEntry (entry : JSVal) : Bool :=
  if truthy entry = false || typeofObject entry = false then false
  else if notNullish (getProp entry "startTime") &&
      isTimeString (getProp entry "startTime") = false then false
  else if notNullish (getProp entry "endTime") &&
      isTimeString (getProp entry "endTime") = false then false
  else if notNullish (getProp entry "breakMinutes") &&
      isNonNegNum (getProp entry "breakMinutes") = false then false
  else if notNullish (getProp entry "dayType") &&
      isDayTypeString (getProp entry "dayType") = false then false
  else true

/-- `isValidAdjustment`: id/date/minutes/note present with correct types and
a well-formed date. -/
def isValidAdjustment (adj : JSVal) : Bool :=
  if truthy adj = false || typeofObject adj = false then false
  else
    isString (getProp adj "id") && isDateKeyString (getProp adj "date") &&
      isNumber (getProp adj "minutes") && isString (getProp adj "note")

/-- `isValidSettings`.  Note that `nonWorkingDayDisplay` is only required to
be a string and `nonWorkingDayRate` only to be a number. -/
def isValidSettings (settings : JSVal) : Bool :=
  if truthy settings = false || typeofObject settings = false then false
  else
    (match getProp settings "workingDays" with
     | .vArr elems => elems.all isWeekdayNum
     | _ => false) &&
      isNonNegNum (getProp settings "expectedMinutesPerDay") &&
      (match getProp settings "weekStartsOn" with
       | .vNum n => decide (n = 0) || decide (n = 1)
       | _ => false) &&
      isString (getProp settings "nonWorkingDayDisplay") &&
      isNumber (getProp settings "nonWorkingDayRate")

/-- `typeof v === "object" && v !== null`. -/
def isNonNullObject : JSVal → Bool
  | .vArr _ | .vObj _ => true
  | _ => false

/-- `Array.isArray(v)`. -/
def isArray : JSVal → Bool
  | .vArr _ => true
  | _ => false

def arrayLength : JSVal → Nat
  | .vArr elems => elems.length
  | _ => 0

def arrayElems : JSVal → List JSVal
  | .vArr elems => elems
  | _ => []

/-- `validateSyncPayload`, written as the conjunction equivalent to the
source's early-return-false chain (both short-circuit on the first failing
check). -/
def validateSyncPayload (payload : JSVal) : Bool :=
  truthy payload && typeofObject payload &&
    isNonNullObject (getProp payload "entries") &&
    isArray (getProp payload "adjustments") &&
    isNonNullObject (getProp payload "settings") &&
    isNumber (getProp payload "timestamp") &&
    decide ((jsKeys (getProp payload "entries")).length ≤ maxEntriesCount) &&
    decide (arrayLength (getProp payload "adjustments") ≤ maxAdjustmentsCount) &&
    (jsKeys (getProp payload "entries")).all (fun key =>
      decide (key ∉ blockedKeys) && dateKeyRe key &&
        isValidDayEntry (getProp (getProp payload "entries") key)) &&
    (arrayElems (getProp payload "adjustments")).all isValidAdjustment &&
    isValidSettings (getProp payload "settings")

/-- `isSyncMessage`: a non-null object whose `type` is one of the three
message tags. -/
def isSyncMessage (data : JSVal) : Bool :=
  if truthy data = false || typeofObject data = false then false
  else
    match getProp data "type" with
    | .vStr s =>
      decide (s = "SYNC_REQUEST") || decide (s = "SYNC_RESPONSE") ||
        decide (s = "SYNC_COMPLETE")
    | _ => false

/-! ## Reading a validated payload into the typed model

The source performs a TypeScript type assertion (`data.payload` used `as
SyncPayload`), which does no runtime conversion; these readers extract
exactly the fields the typed downstream code then reads. -/

def asOptString : JSVal → Option String
  | .vStr s => some s
  | _ => none

def asOptInt : JSVal → Option Int
  | .vNum n => some n
  | _ => none

def decodeDayType : JSVal → Option DayType
  | .vStr "normal" => some .normal
  | .vStr "sick" => some .sick
  | .vStr "sick-half" => some .sickHalf
  | .vStr "holiday" => some .holiday
  | .vStr "holiday-half" => some .holidayHalf
  | .vStr "flexi" => some .flexi
  | .vStr "flexi-half" => some .flexiHalf
  | _ => none

def decodeDayEntry (v : JSVal) : DayEntry :=
  { startTime := asOptString (getProp v "startTime")
    endTime := asOptString (getProp v "endTime")
    breakMinutes := asOptInt (getProp v "breakMinutes")
    dayType := decodeDayType (getProp v "dayType") }

def decodeAdjustment (v : JSVal) : Adjustment :=
  { id := (asOptString (getProp v "id")).getD ""
    date := (asOptString (getProp v "date")).getD ""
    minutes := (asOptInt (getProp v "minutes")).getD 0
    note := (asOptString (getProp v "note")).getD "" }

def decodeSettings (v : JSVal) : Settings :=
  { workingDays := (arrayElems (getProp v "workingDays")).map (fun e => (asOptInt e).getD 0)
    expectedMinutesPerDay := (asOptInt (getProp v "expectedMinutesPerDay")).getD 0
    weekStartsOn := (asOptInt (getProp v "weekStartsOn")).getD 0
    nonWorkingDayDisplay := (asOptString (getProp v "nonWorkingDayDisplay")).getD ""
    nonWorkingDayRate := (asOptInt (getProp v "nonWorkingDayRate")).getD 0 }

def decodeLeaveBalance (v : JSVal) : Option LeaveBalance :=
  match v with
  | .vObj _ =>
    some { totalDays := (asOptInt (getProp v "totalDays")).getD 0
           periodStart := (asOptString (getProp v "periodStart")).getD ""
           periodEnd := (asOptString (getProp v "periodEnd")).getD "" }
  | _ => none

def decodeEntries : JSVal → EntryMap
  | .vObj fields => fields.map (fun p => (p.1, decodeDayEntry p.2))
  | _ => []

def decodeSyncPayload (v : JSVal) : SyncPayload :=
  { entries := decodeEntries (getProp v "entries")
    adjustments := (arrayElems (getProp v "adjustments")).map decodeAdjustment
    settings := decodeSettings (getProp v "settings")
    leaveBalance := decodeLeaveBalance (getProp v "leaveBalance")
    timestamp := (asOptInt (getProp v "timestamp")).getD 0 }

/-! ## Session controller (`hooks/use-p2p-sync.ts`)

The hook's state (`useState` record plus the `useRef` cells) is embedded as
one structure; event handlers and actions become state-transition functions.
Connections are identified by opaque numbers.  The extra `processed` field
is instrumentation with no source counterpart: it records every data value
handed to `processIncomingData`, so theorems can observe that a message was
processed or replayed.  Timers and the artificial progress delays are not
modeled; an async handler is embedded as its run-to-completion result. -/

inductive SyncStatus where
  | idle
  | hosting
  | scanning
  | connecting
  | awaitingAcceptance
  | syncingEntries
  | syncingSettings
  | entryConflicts
  | settingsConflict
  | complete
  | error
deriving DecidableEq, Repr

/-- A per-conflict resolution, the source's `"local" | "remote"` strings. -/
inductive Choice where
  | chooseLocal
  | chooseRemote
deriving DecidableEq, Repr

structure SessionState where
  status : SyncStatus
  peerId : Option String := none
  error : Option String := none
  syncResult : Option SyncResult := none
  pendingConnection : Option Nat := none
  syncProgress : Nat × Nat := (0, 0)
  activeConnection : Option Nat := none
  remotePayload : Option SyncPayload := none
  connectionAccepted : Bool := false
  pendingData : Option (JSVal × Nat) := none
  processed : List (JSVal × Nat) := []
deriving Repr

/-- `processSyncResult` (the async body run to completion): records the
result and the progress counts, then halts at `entry-conflicts` or
`settings-conflict` without applying anything, or — with no conflicts —
calls `onMerge` with the merged state, sends `SYNC_COMPLETE` and moves to
`complete`.  The returned Bool reports whether `onMerge` was called. -/
def processSyncResult (st : SessionState) (result : SyncResult) :
    SessionState × Bool :=
  let st1 := { st with
    syncResult := some result
    syncProgress := (result.mergedEntries.length, result.mergedAdjustments.length) }
  if result.entryConflicts.length > 0 then
    ({ st1 with status := .entryConflicts }, false)
  else if result.settingsConflict ≠ none then
    ({ st1 with status := .settingsConflict }, false)
  else
    ({ st1 with status := .complete }, true)

/-- `data.type`, when it is a string. -/
def msgType (data : JSVal) : Option String := asOptString (getProp data "type")

/-- Result of feeding one inbound data value to a handler: the new session
state, the sync result handed to `processSyncResult` (`none` when the merge
engine was not invoked), and whether `onMerge` was called. -/
structure StepResult where
  state : SessionState
  mergeInput : Option SyncResult := none
  onMergeCalled : Bool := false

/-- `processIncomingData` (host side): non-sync data falls through; a
`SYNC_REQUEST` whose payload validates stores the remote payload, sends back
a `SYNC_RESPONSE` (sends are unobserved here) and runs the merge engine;
`SYNC_COMPLETE` moves to complete; everything else leaves the state as is. -/
def processIncomingData (localPayload : SyncPayload) (st : SessionState)
    (data : JSVal) : StepResult :=
  if isSyncMessage data = false then { state := st }
  else if decide (msgType data = some "SYNC_REQUEST") &&
      validateSyncPayload (getProp data "payload") then
    let remote := decodeSyncPayload (getProp data "payload")
    let result := prepareSyncResult localPayload remote
    let pr := processSyncResult { st with remotePayload := some remote } result
    { state := pr.1, mergeInput := some result, onMergeCalled := pr.2 }
  else if decide (msgType data = some "SYNC_COMPLETE") then
    { state := { st with status := .complete } }
  else { state := st }

/-- The `onData` handler installed by `connectToPeer` (initiator side):
like `processIncomingData` but keyed on `SYNC_RESPONSE`. -/
def clientOnData (localPayload : SyncPayload) (st : SessionState)
    (data : JSVal) : StepResult :=
  if isSyncMessage data = false then { state := st }
  else if decide (msgType data = some "SYNC_RESPONSE") &&
      validateSyncPayload (getProp data "payload") then
    let remote := decodeSyncPayload (getProp data "payload")
    let result := prepareSyncResult localPayload remote
    let pr := processSyncResult { st with remotePayload := some remote } result
    { state := pr.1, mergeInput := some result, onMergeCalled := pr.2 }
  else if decide (msgType data = some "SYNC_COMPLETE") then
    { state := { st with status := .complete } }
  else { state := st }

/-- The `onData` handler installed by `startHosting`: non-sync data is
ignored; sync data is buffered while the connection is not yet accepted,
otherwise handed to `processIncomingData`. -/
def hostOnData (localPayload : SyncPayload) (st : SessionState) (data : JSVal)
    (conn : Nat) : StepResult :=
  if isSyncMessage data = false then { state := st }
  else if st.connectionAccepted = false then
    { state := { st with pendingData := some (data, conn) } }
  else
    let r := processIncomingData localPayload st data
    { r with state := { r.state with processed := r.state.processed ++ [(data, conn)] } }

/-- The `onConnection` handler installed by `startHosting`: stores the
pending connection and waits for user acceptance. -/
def hostOnConnection (st : SessionState) (conn : Nat) : SessionState :=
  { st with status := .awaitingAcceptance, pendingConnection := some conn }

/-- `acceptConnection`: marks the pending connection accepted, then replays
any buffered data through `processIncomingData`. -/
def acceptConnection (localPayload : SyncPayload) (st : SessionState) : StepResult :=
  match st.pendingConnection with
  | none => { state := st }
  | some conn =>
    let st1 := { st with
      connectionAccepted := true
      activeConnection := some conn
      status := .syncingEntries
      pendingConnection := none }
    match st1.pendingData with
    | none => { state := st1 }
    | some (d, c) =>
      let r := processIncomingData localPayload st1 d
      { r with state := { r.state with
          pendingData := none
          processed := r.state.processed ++ [(d, c)] } }

/-- `rejectConnection`: closes the pending channel and returns to hosting
(the timeout is re-armed, unmodeled).  Note that it clears neither
`connectionAccepted` nor `pendingData`. -/
def rejectConnection (st : SessionState) : SessionState :=
  { st with status := .hosting, pendingConnection := none }

/-- `resolutions.get(date)` on the JS `Map` of per-date choices. -/
def lookupChoice : List (String × Choice) → String → Option Choice
  | [], _ => none
  | (k, c) :: rest, key => if k = key then some c else lookupChoice rest key

/-- JS object assignment `result[date] = e`: replaces the binding in place
when the key is present, appends otherwise. -/
def setEntry (m : EntryMap) (k : String) (v : DayEntry) : EntryMap :=
  if m.any (fun p => decide (p.1 = k)) then
    m.map (fun p => if p.1 = k then (k, v) else p)
  else m ++ [(k, v)]

/-- The resolution loop of `resolveEntryConflicts`: each conflict with a
choice gets the chosen side written; a conflict with no choice is skipped. -/
def applyChoices (merged : EntryMap) (resolutions : List (String × Choice))
    (conflicts : List ConflictEntry) : EntryMap :=
  conflicts.foldl
    (fun acc c =>
      match lookupChoice resolutions c.date with
      | some .chooseLocal => setEntry acc c.date c.localEntry
      | some .chooseRemote => setEntry acc c.date c.remoteEntry
      | none => acc)
    merged

/-- `resolveEntryConflicts`: applies the given choices over the merged
entries, clears the conflict list, then either halts at
`settings-conflict`, or calls `onMerge` with the final state, sends
`SYNC_COMPLETE` (unobserved) and completes.  The returned Bool reports
whether `onMerge` was called. -/
def resolveEntryConflicts (st : SessionState)
    (resolutions : List (String × Choice)) : SessionState × Bool :=
  match st.syncResult with
  | none => (st, false)
  | some r =>
    let finalEntries := applyChoices r.mergedEntries resolutions r.entryConflicts
    let updated := { r with mergedEntries := finalEntries, entryConflicts := [] }
    if r.settingsConflict ≠ none then
      ({ st with status := .settingsConflict, syncResult := some updated }, false)
    else
      ({ st with status := .complete, syncResult := some updated }, true)

/-! ## Lemmas about the embedding's containers -/

theorem dedupFirstAux_mem (a : String) :
    ∀ (l seen : List String), a ∈ dedupFirstAux seen l ↔ a ∈ l ∧ a ∉ seen := by
  intro l
  induction l with
  | nil => intro seen; simp [dedupFirstAux]
  | cons x xs ih =>
    intro seen
    rw [dedupFirstAux]
    by_cases hx : x ∈ seen
    · rw [if_pos hx, ih]
      constructor
      · rintro ⟨h1, h2⟩
        exact ⟨List.mem_cons_of_mem _ h1, h2⟩
      · rintro ⟨h1, h2⟩
        rcases List.mem_cons.1 h1 with rfl | h1
        · exact absurd hx h2
        · exact ⟨h1, h2⟩
    · rw [if_neg hx]
      by_cases hax : a = x
      · subst hax; simp [ih, hx]
      · simp only [List.mem_cons, hax, false_or]
        rw [ih]
        simp [List.mem_cons, hax]

theorem dedupFirst_mem (l : List String) (a : String) : a ∈ dedupFirst l ↔ a ∈ l := by
  simp [dedupFirst, dedupFirstAux_mem]

theorem dedupFirstAux_nodup : ∀ (l seen : List String), (dedupFirstAux seen l).Nodup := by
  intro l
  induction l with
  | nil => intro seen; simp [dedupFirstAux]
  | cons x xs ih =>
    intro seen
    rw [dedupFirstAux]
    by_cases hx : x ∈ seen
    · simpa [hx] using ih seen
    · rw [if_neg hx]
      refine List.nodup_cons.2 ⟨?_, ih _⟩
      intro hmem
      exact ((dedupFirstAux_mem x xs (x :: seen)).1 hmem).2 (List.mem_cons_self x seen)

theorem dedupFirst_nodup (l : List String) : (dedupFirst l).Nodup :=
  dedupFirstAux_nodup l []

theorem allDates_mem (localEntries remoteEntries : EntryMap) (d : String) :
    d ∈ allDates localEntries remoteEntries ↔
      d ∈ localEntries.map Prod.fst ∨ d ∈ remoteEntries.map Prod.fst := by
  simp [allDates, dedupFirst_mem]

theorem allDates_perm_comm (a b : EntryMap) :
    (allDates a b).Perm (allDates b a) := by
  refine (List.perm_ext_iff_of_nodup (dedupFirst_nodup _) (dedupFirst_nodup _)).2 ?_
  intro x
  simp only [allDates, dedupFirst_mem, List.mem_append]
  exact Or.comm

theorem lookupEntry_eq_none (m : EntryMap) (k : String)
    (h : k ∉ m.map Prod.fst) : lookupEntry m k = none := by
  induction m with
  | nil => rfl
  | cons p rest ih =>
    simp only [List.map_cons, List.mem_cons] at h
    push_neg at h
    simpa [lookupEntry, Ne.symm h.1] using ih h.2

theorem mem_of_lookupEntry_eq_some {m : EntryMap} {k : String} {e : DayEntry}
    (h : lookupEntry m k = some e) : k ∈ m.map Prod.fst := by
  induction m with
  | nil => simp [lookupEntry] at h
  | cons p rest ih =>
    rw [lookupEntry] at h
    by_cases hk : p.1 = k
    · simp [hk]
    · simp only [hk, if_false] at h
      simp [ih h]

/-- Looking a key up in an association list built keyed over a
duplicate-free key list. -/
theorem lookupEntry_filterMap (f : String → Option DayEntry) :
    ∀ (keys : List String), keys.Nodup → ∀ d,
      lookupEntry (keys.filterMap (fun k => (f k).map (fun e => (k, e)))) d =
        if d ∈ keys then f d else none := by
  intro keys
  induction keys with
  | nil => intro _ d; simp [lookupEntry]
  | cons k rest ih =>
    intro hnd d
    have hk : k ∉ rest := (List.nodup_cons.1 hnd).1
    have hrest := (List.nodup_cons.1 hnd).2
    rw [List.filterMap_cons]
    by_cases hdk : d = k
    · subst hdk
      cases hfd : f d with
      | none => simp [hfd, ih hrest d, lookupEntry, hk]
      | some e => simp [hfd, lookupEntry]
    · cases hfk : f k with
      | none => simp [hfk, ih hrest d, hdk]
      | some e => simp [hfk, lookupEntry, hdk, Ne.symm hdk, ih hrest d]

theorem decide_eq_comm {α : Type} [DecidableEq α] (x y : α) :
    decide (x = y) = decide (y = x) :=
  decide_eq_decide.2 eq_comm

theorem entriesAreEqual_symm (a b : DayEntry) :
    entriesAreEqual a b = entriesAreEqual b a := by
  unfold entriesAreEqual
  rw [decide_eq_comm a.startTime, decide_eq_comm a.endTime,
    decide_eq_comm a.breakMinutes, decide_eq_comm a.dayType]

theorem arraysEqual_iff_perm (a b : List Int) :
    arraysEqual a b = true ↔ a.Perm b := by
  unfold arraysEqual
  simp only [Bool.and_eq_true, decide_eq_true_eq]
  constructor
  · rintro ⟨-, hsort⟩
    exact (List.perm_insertionSort _ a).symm.trans
      (hsort ▸ List.perm_insertionSort (fun x y => x ≤ y) b)
  · intro hperm
    refine ⟨hperm.length_eq, ?_⟩
    haveI : IsAntisymm Int (fun x y : Int => x ≤ y) :=
      ⟨fun _ _ h1 h2 => le_antisymm h1 h2⟩
    refine List.eq_of_perm_of_sorted (r := fun x y => x ≤ y) ?_ ?_ ?_
    · exact (List.perm_insertionSort _ a).trans
        (hperm.trans (List.perm_insertionSort _ b).symm)
    · exact List.sorted_insertionSort _ a
    · exact List.sorted_insertionSort _ b

theorem settingsAreEqual_iff (s1 s2 : Settings) :
    settingsAreEqual s1 s2 = true ↔
      (s1.workingDays.Perm s2.workingDays ∧
        s1.expectedMinutesPerDay = s2.expectedMinutesPerDay ∧
        s1.weekStartsOn = s2.weekStartsOn ∧
        s1.nonWorkingDayDisplay = s2.nonWorkingDayDisplay ∧
        s1.nonWorkingDayRate = s2.nonWorkingDayRate) := by
  simp [settingsAreEqual, Bool.and_eq_true, arraysEqual_iff_perm, and_assoc]

/-! ## Decomposition lemmas for the validators -/

theorem validateSyncPayload_parts {p : JSVal} (h : validateSyncPayload p = true) :
    (jsKeys (getProp p "entries")).length ≤ maxEntriesCount ∧
      (∀ key ∈ jsKeys (getProp p "entries"),
        key ∉ blockedKeys ∧ dateKeyRe key = true ∧
          isValidDayEntry (getProp (getProp p "entries") key) = true) ∧
      isValidSettings (getProp p "settings") = true := by
  unfold validateSyncPayload at h
  simp only [Bool.and_eq_true, decide_eq_true_eq, List.all_eq_true, and_assoc] at h
  obtain ⟨-, -, -, -, -, -, h7, -, h9, -, h11⟩ := h
  refine ⟨h7, ?_, h11⟩
  intro key hkey
  have hx := h9 key hkey
  simpa [Bool.and_eq_true, decide_eq_true_eq, and_assoc] using hx

theorem isValidSettings_weekStartsOn {s : JSVal} {n : Int}
    (h : isValidSettings s = true) (hw : getProp s "weekStartsOn" = JSVal.vNum n) :
    n = 0 ∨ n = 1 := by
  unfold isValidSettings at h
  split at h
  · exact absurd h (by simp)
  · rw [hw] at h
    simp only [Bool.and_eq_true, Bool.or_eq_true, decide_eq_true_eq, and_assoc] at h
    exact h.2.2.1

theorem isValidSettings_display {s : JSVal} (h : isValidSettings s = true) :
    isString (getProp s "nonWorkingDayDisplay") = true := by
  unfold isValidSettings at h
  split at h
  · exact absurd h (by simp)
  · simp only [Bool.and_eq_true, and_assoc] at h
    exact h.2.2.2.1

theorem isValidDayEntry_breakMinutes {e : JSVal} {n : Int}
    (h : isValidDayEntry e = true)
    (hbm : getProp e "breakMinutes" = JSVal.vNum n) : 0 ≤ n := by
  by_contra hneg
  unfold isValidDayEntry at h
  rw [hbm] at h
  repeat' split at h
  all_goals simp_all [notNullish, isNonNegNum]

/-! ## Lemmas about the adjustment merge -/

instance : IsTotal Adjustment dateLe := ⟨fun a b => le_total a.date b.date⟩

instance : IsTrans Adjustment dateLe := ⟨fun _ _ _ hab hbc => le_trans hab hbc⟩

theorem foldl_mapSet_pairs :
    ∀ (l : List Adjustment) (m : List (String × Adjustment)),
      (l.map Adjustment.id).Nodup →
      (∀ a ∈ l, ∀ q ∈ m, q.1 ≠ a.id) →
      l.foldl (fun acc adj => mapSet acc adj.id adj) m =
        m ++ l.map (fun a => (a.id, a)) := by
  intro l
  induction l with
  | nil => intro m h1 h2; simp
  | cons a rest ih =>
    intro m hnd hdisj
    simp only [List.map_cons, List.nodup_cons] at hnd
    have hany : m.any (fun q => decide (q.1 = a.id)) = false := by
      simp only [List.any_eq_false, decide_eq_true_eq]
      intro q hq
      exact hdisj a (List.mem_cons_self _ _) q hq
    have hset : mapSet m a.id a = m ++ [(a.id, a)] := by
      unfold mapSet
      rw [hany]
      simp
    have hdisj2 : ∀ b ∈ rest, ∀ q ∈ m ++ [(a.id, a)], q.1 ≠ b.id := by
      intro b hb q hq
      rcases List.mem_append.1 hq with hq2 | hq2
      · exact hdisj b (List.mem_cons_of_mem _ hb) q hq2
      · have hqe : q = (a.id, a) := by simpa using hq2
        subst hqe
        intro hcontra
        exact hnd.1 (by
          rw [show a.id = b.id from hcontra]
          exact List.mem_map_of_mem _ hb)
    rw [List.foldl_cons, hset, ih (m ++ [(a.id, a)]) hnd.2 hdisj2]
    simp

theorem foldl_addNew :
    ∀ (l : List Adjustment) (m : List (String × Adjustment)),
      (l.map Adjustment.id).Nodup →
      l.foldl (fun acc adj =>
          if acc.any (fun q => decide (q.1 = adj.id)) then acc
          else acc ++ [(adj.id, adj)]) m =
        m ++ (l.filter (fun a => decide (a.id ∉ m.map Prod.fst))).map
          (fun a => (a.id, a)) := by
  intro l
  induction l with
  | nil => intro m _; simp
  | cons a rest ih =>
    intro m hnd
    simp only [List.map_cons, List.nodup_cons] at hnd
    rw [List.foldl_cons]
    by_cases hmem : a.id ∈ m.map Prod.fst
    · have hany : m.any (fun q => decide (q.1 = a.id)) = true := by
        simp only [List.any_eq_true, decide_eq_true_eq]
        obtain ⟨q, hq, hq1⟩ := List.mem_map.1 hmem
        exact ⟨q, hq, hq1⟩
      rw [if_pos hany, ih m hnd.2]
      simp [List.filter_cons, hmem]
    · have hany : m.any (fun q => decide (q.1 = a.id)) = false := by
        simp only [List.any_eq_false, decide_eq_true_eq]
        intro q hq hq1
        exact hmem (hq1 ▸ List.mem_map_of_mem Prod.fst hq)
      rw [if_neg (by simp [hany]), ih (m ++ [(a.id, a)]) hnd.2]
      have hfilter :
          rest.filter (fun b => decide (b.id ∉ (m ++ [(a.id, a)]).map Prod.fst)) =
            rest.filter (fun b => decide (b.id ∉ m.map Prod.fst)) := by
        refine List.filter_congr ?_
        intro b hb
        have hbne : b.id ≠ a.id := by
          intro hcontra
          exact hnd.1 (hcontra ▸ List.mem_map_of_mem _ hb)
        simp [hbne]
      rw [hfilter]
      simp [List.filter_cons, hmem]

/-- The adjustment union before sorting: the local list followed by the
remote adjustments whose id is not present locally. -/
theorem mergeAdjustments_eq (localAdj remoteAdj : List Adjustment)
    (hl : (localAdj.map Adjustment.id).Nodup)
    (hr : (remoteAdj.map Adjustment.id).Nodup) :
    mergeAdjustments localAdj remoteAdj =
      List.insertionSort dateLe
        (localAdj ++ remoteAdj.filter
          (fun a => decide (a.id ∉ localAdj.map Adjustment.id))) := by
  simp only [mergeAdjustments]
  rw [foldl_mapSet_pairs localAdj [] hl (by simp), List.nil_append,
    foldl_addNew remoteAdj _ hr]
  congr 1
  simp [List.map_map, Function.comp_def]

/-! ## Lemmas about the session controller -/

theorem applyChoices_no_choice :
    ∀ (conflicts : List ConflictEntry) (merged : EntryMap)
      (resolutions : List (String × Choice)),
      (∀ c ∈ conflicts, lookupChoice resolutions c.date = none) →
      applyChoices merged resolutions conflicts = merged := by
  intro conflicts
  induction conflicts with
  | nil => intro merged res _; rfl
  | cons c rest ih =>
    intro merged res h
    unfold applyChoices
    simp only [List.foldl_cons, h c (List.mem_cons_self c rest)]
    exact ih merged res (fun d hd => h d (List.mem_cons_of_mem _ hd))

theorem processSyncResult_refs (st : SessionState) (result : SyncResult) :
    (processSyncResult st result).1.processed = st.processed ∧
    (processSyncResult st result).1.pendingData = st.pendingData ∧
    (processSyncResult st result).1.connectionAccepted = st.connectionAccepted ∧
    (processSyncResult st result).1.pendingConnection = st.pendingConnection := by
  unfold processSyncResult
  split_ifs <;> exact ⟨rfl, rfl, rfl, rfl⟩

/-- `processIncomingData` never touches the buffering refs: the processed
trace, the buffered data, the acceptance flag and the pending connection all
pass through unchanged. -/
theorem processIncomingData_refs (lp : SyncPayload) (st : SessionState)
    (data : JSVal) :
    (processIncomingData lp st data).state.processed = st.processed ∧
    (processIncomingData lp st data).state.pendingData = st.pendingData ∧
    (processIncomingData lp st data).state.connectionAccepted = st.connectionAccepted ∧
    (processIncomingData lp st data).state.pendingConnection = st.pendingConnection := by
  unfold processIncomingData
  split_ifs
  · exact ⟨rfl, rfl, rfl, rfl⟩
  · have h := processSyncResult_refs
      { st with remotePayload := some (decodeSyncPayload (getProp data "payload")) }
      (prepareSyncResult lp (decodeSyncPayload (getProp data "payload")))
    exact ⟨h.1, h.2.1, h.2.2.1, h.2.2.2⟩
  · exact ⟨rfl, rfl, rfl, rfl⟩
  · exact ⟨rfl, rfl, rfl, rfl⟩

/-! ## Concrete example data used by the claim checks -/

def baseSettings : Settings :=
  { workingDays := [1, 2, 3, 4, 5], expectedMinutesPerDay := 450, weekStartsOn := 1,
    nonWorkingDayDisplay := "show", nonWorkingDayRate := 1 }

def examplePayload : SyncPayload :=
  { entries := [], adjustments := [], settings := baseSettings,
    leaveBalance := none, timestamp := 0 }

def exampleState : SessionState := { status := SyncStatus.syncingEntries }

/-- A `SYNC_REQUEST` whose payload (`null`) fails `validateSyncPayload`. -/
def badRequestMsg : JSVal :=
  JSVal.vObj [("type", JSVal.vStr "SYNC_REQUEST"), ("payload", JSVal.vNull)]

/-! ## Claim C1 -/

/-- C1 counterexample: a `SYNC_REQUEST` whose payload fails validation is
dropped silently — the session stays in its current status (here
`syncing-entries`), contrary to the claimed transition to the error state. -/
theorem c1_counterexample :
    isSyncMessage badRequestMsg = true ∧
    validateSyncPayload (getProp badRequestMsg "payload") = false ∧
    (processIncomingData examplePayload exampleState badRequestMsg).state.status =
      SyncStatus.syncingEntries ∧
    (processIncomingData examplePayload exampleState badRequestMsg).state.status ≠
      SyncStatus.error ∧
    (processIncomingData examplePayload exampleState badRequestMsg).mergeInput = none :=
  ⟨by decide, by decide, rfl, by decide, rfl⟩

/-- C1 (amended): an inbound message that fails validation — either not a
sync message at all, or a sync message other than `SYNC_COMPLETE` whose
payload fails `validateSyncPayload` — is discarded by both the host and the
initiator handler: the merge engine is never invoked on it and the session
state is left completely unchanged; in particular no transition to the error
state occurs. -/
theorem c1_theorem (lp : SyncPayload) (st : SessionState) (data : JSVal)
    (h : isSyncMessage data = false ∨
      (msgType data ≠ some "SYNC_COMPLETE" ∧
        validateSyncPayload (getProp data "payload") = false)) :
    processIncomingData lp st data = { state := st } ∧
    clientOnData lp st data = { state := st } := by
  rcases h with h | ⟨hn, hv⟩
  · constructor <;> simp [processIncomingData, clientOnData, h]
  · cases hm : isSyncMessage data
    · constructor <;> simp [processIncomingData, clientOnData, hm]
    · constructor <;> simp [processIncomingData, clientOnData, hm, hv, hn]

/-- C1 witness: the amended theorem applied to the concrete invalid
`SYNC_REQUEST`. -/
theorem c1_witness :
    processIncomingData examplePayload exampleState badRequestMsg =
      { state := exampleState } ∧
    clientOnData examplePayload exampleState badRequestMsg =
      { state := exampleState } :=
  c1_theorem examplePayload exampleState badRequestMsg
    (Or.inr ⟨by decide, by decide⟩)

/-! ## Claim C2 -/

def exampleConflict : ConflictEntry :=
  { date := "2024-01-10",
    localEntry := { startTime := some "09:00", endTime := some "17:00" },
    remoteEntry :=
      { startTime := some "09:00", endTime := some "17:00", breakMinutes := some 30 } }

def conflictedResult : SyncResult :=
  { mergedEntries := [], mergedAdjustments := [], mergedSettings := baseSettings,
    mergedLeaveBalance := none, entryConflicts := [exampleConflict],
    settingsConflict := none }

def conflictedState : SessionState :=
  { status := SyncStatus.entryConflicts, syncResult := some conflictedResult }

/-- C2 counterexample: calling `resolveEntryConflicts` with an empty
resolutions map — no choice for the one pending conflict — still clears the
conflict list, still calls `onMerge` and completes, contrary to the claim
that the conflict persists and the merged state is withheld. -/
theorem c2_counterexample :
    lookupChoice [] exampleConflict.date = none ∧
    (resolveEntryConflicts conflictedState []).2 = true ∧
    ((resolveEntryConflicts conflictedState []).1.syncResult.map
      SyncResult.entryConflicts) = some [] ∧
    (resolveEntryConflicts conflictedState []).1.status = SyncStatus.complete :=
  ⟨rfl, rfl, rfl, rfl⟩

/-- C2 (amended): `processSyncResult` never hands a sync result with pending
entry conflicts to `onMerge` (it halts at the `entry-conflicts` status); but
`resolveEntryConflicts` does not require a complete resolutions map — with
any map, even one lacking choices for some conflicts, it clears the conflict
list and, when no settings conflict is pending, calls `onMerge`; a conflict
with no choice is skipped, so when no choice at all is given the merged
entries are handed over unchanged. -/
theorem c2_theorem :
    (∀ (st : SessionState) (result : SyncResult),
      result.entryConflicts ≠ [] →
        (processSyncResult st result).2 = false ∧
        (processSyncResult st result).1.status = SyncStatus.entryConflicts) ∧
    (∀ (st : SessionState) (r : SyncResult) (resolutions : List (String × Choice)),
      st.syncResult = some r → r.settingsConflict = none →
        (resolveEntryConflicts st resolutions).2 = true ∧
        ((resolveEntryConflicts st resolutions).1.syncResult.map
          SyncResult.entryConflicts) = some []) ∧
    (∀ (st : SessionState) (r : SyncResult) (resolutions : List (String × Choice)),
      st.syncResult = some r →
      (∀ c ∈ r.entryConflicts, lookupChoice resolutions c.date = none) →
        ((resolveEntryConflicts st resolutions).1.syncResult.map
          SyncResult.mergedEntries) = some r.mergedEntries) := by
  refine ⟨?_, ?_, ?_⟩
  · intro st result h
    have hlen : 0 < result.entryConflicts.length := List.length_pos.2 h
    simp [processSyncResult, hlen]
  · intro st r res hsr hsc
    simp [resolveEntryConflicts, hsr, hsc]
  · intro st r res hsr hnone
    have hap := applyChoices_no_choice r.entryConflicts r.mergedEntries res hnone
    rcases hsc2 : r.settingsConflict with _ | sc <;>
      simp [resolveEntryConflicts, hsr, hsc2, hap]

/-- C2 witness: the amended theorem applied to a session holding one
unresolved conflict and an empty resolutions map. -/
theorem c2_witness :
    ((processSyncResult exampleState conflictedResult).2 = false ∧
      (processSyncResult exampleState conflictedResult).1.status =
        SyncStatus.entryConflicts) ∧
    ((resolveEntryConflicts conflictedState []).2 = true ∧
      ((resolveEntryConflicts conflictedState []).1.syncResult.map
        SyncResult.entryConflicts) = some []) ∧
    ((resolveEntryConflicts conflictedState []).1.syncResult.map
      SyncResult.mergedEntries) = some conflictedResult.mergedEntries :=
  ⟨c2_theorem.1 exampleState conflictedResult (by decide),
    c2_theorem.2.1 conflictedState conflictedResult [] rfl rfl,
    c2_theorem.2.2 conflictedState conflictedResult [] rfl (by decide)⟩

/-! ## Claim C3 -/

/-- An otherwise fully well-formed payload whose settings carry an arbitrary
string as `nonWorkingDayDisplay`. -/
def displayPayload (s : String) : JSVal :=
  JSVal.vObj [
    ("entries", JSVal.vObj []),
    ("adjustments", JSVal.vArr []),
    ("settings", JSVal.vObj [
      ("workingDays", JSVal.vArr [JSVal.vNum 1, JSVal.vNum 2]),
      ("expectedMinutesPerDay", JSVal.vNum 450),
      ("weekStartsOn", JSVal.vNum 1),
      ("nonWorkingDayDisplay", JSVal.vStr s),
      ("nonWorkingDayRate", JSVal.vNum 1)]),
    ("timestamp", JSVal.vNum 1700000000000)]

/-- C3 counterexample: a payload that is well-formed in every other respect
but whose display mode is the string "not-a-real-mode" — outside the three
enumerated values — is accepted by `validateSyncPayload`, contrary to the
claim that it is rejected. -/
theorem c3_counterexample :
    validateSyncPayload (displayPayload "not-a-real-mode") = true ∧
    "not-a-real-mode" ∉ (["show", "disable", "hide"] : List String) :=
  ⟨by decide, by decide⟩

/-- C3 (amended): `validateSyncPayload` rejects a payload whose settings'
`nonWorkingDayDisplay` is not a string, but accepts every payload of the
otherwise well-formed shape whatever string the display mode is — the
three-value enumeration is not enforced by validation. -/
theorem c3_theorem :
    (∀ p : JSVal,
      isString (getProp (getProp p "settings") "nonWorkingDayDisplay") = false →
      validateSyncPayload p = false) ∧
    (∀ s : String, validateSyncPayload (displayPayload s) = true) := by
  constructor
  · intro p hns
    rcases Bool.eq_false_or_eq_true (validateSyncPayload p) with hv | hv
    swap
    · exact hv
    · have hd := isValidSettings_display (validateSyncPayload_parts hv).2.2
      rw [hns] at hd
      exact absurd hd (by simp)
  · intro s
    rfl

/-- C3 witness: the amended theorem applied to a payload with a numeric
display mode (rejected) and to the enumerated value "hide" (accepted). -/
theorem c3_witness :
    validateSyncPayload
      (JSVal.vObj [("settings",
        JSVal.vObj [("nonWorkingDayDisplay", JSVal.vNum 3)])]) = false ∧
    validateSyncPayload (displayPayload "hide") = true :=
  ⟨c3_theorem.1 _ rfl, c3_theorem.2 "hide"⟩

/-! ## Claim C4 -/

/-- The emptiness predicate exactly as the claim words it: all four fields
absent/zero/default, reading "default" for the day-type as `normal`. -/
def claimEntryIsEmpty (e : DayEntry) : Bool :=
  decide (e.startTime = none) && decide (e.endTime = none) &&
    numOptFalsy e.breakMinutes &&
    (decide (e.dayType = none) || decide (e.dayType = some DayType.normal))

def normalOnlyEntry : DayEntry := { dayType := some DayType.normal }

/-- C4 counterexample: an entry whose only set field is the default day-type
`normal` is empty under the claim's wording but non-empty for the code's
`entryIsEmpty` (the string "normal" is truthy). -/
theorem c4_counterexample :
    claimEntryIsEmpty normalOnlyEntry = true ∧
    entryIsEmpty (some normalOnlyEntry) = false :=
  ⟨rfl, rfl⟩

/-- C4 (amended): a present entry is empty iff its start time is absent or
the empty string, its end time is absent or the empty string, its break
minutes are absent or zero, and its day-type is absent — a present day-type,
the default value `normal` included, makes the entry non-empty; and a
`ConflictEntry` reported by `detectConflicts` always has two non-empty
sides. -/
theorem c4_theorem :
    (∀ e : DayEntry, entryIsEmpty (some e) = true ↔
      ((e.startTime = none ∨ e.startTime = some "") ∧
        (e.endTime = none ∨ e.endTime = some "") ∧
        (e.breakMinutes = none ∨ e.breakMinutes = some 0) ∧
        e.dayType = none)) ∧
    (∀ (localEntries remoteEntries : EntryMap) (c : ConflictEntry),
      c ∈ detectConflicts localEntries remoteEntries →
        entryIsEmpty (some c.localEntry) = false ∧
        entryIsEmpty (some c.remoteEntry) = false) := by
  constructor
  · intro e
    rcases e with ⟨st, et, bm, dt⟩
    cases st <;> cases et <;> cases bm <;> cases dt <;>
      simp [entryIsEmpty, strOptFalsy, numOptFalsy, and_assoc]
  · intro le re c hc
    obtain ⟨d, -, hd⟩ := List.mem_filterMap.1 hc
    unfold conflictAt at hd
    split at hd
    · split at hd
      · rename_i hcond
        simp only [Bool.and_eq_true, decide_eq_true_eq, and_assoc] at hcond
        injection hd with hd2
        subst hd2
        exact ⟨hcond.1, hcond.2.1⟩
      · simp at hd
    · simp at hd

def c4Local : EntryMap := [("2024-01-10", { startTime := some "09:00" })]

def c4Remote : EntryMap := [("2024-01-10", { startTime := some "10:00" })]

def c4Conflict : ConflictEntry :=
  { date := "2024-01-10", localEntry := { startTime := some "09:00" },
    remoteEntry := { startTime := some "10:00" } }

/-- C4 witness: the amended theorem applied to the concrete conflict
detected between two one-entry maps. -/
theorem c4_witness :
    entryIsEmpty (some c4Conflict.localEntry) = false ∧
    entryIsEmpty (some c4Conflict.remoteEntry) = false :=
  c4_theorem.2 c4Local c4Remote c4Conflict (by decide)

/-! ## Claim C5 -/

def settingsDupA : Settings :=
  { workingDays := [1, 1, 2], expectedMinutesPerDay := 450, weekStartsOn := 1,
    nonWorkingDayDisplay := "show", nonWorkingDayRate := 1 }

def settingsDupB : Settings :=
  { workingDays := [1, 2, 2], expectedMinutesPerDay := 450, weekStartsOn := 1,
    nonWorkingDayDisplay := "show", nonWorkingDayRate := 1 }

/-- C5 counterexample: two settings whose workingDays denote the same set
{1, 2} (with different duplicate multiplicities) and agree on every other
field are reported as a conflict — `detectSettingsConflict` does not decide
set-equality on workingDays. -/
theorem c5_counterexample :
    settingsDupA.workingDays.toFinset = settingsDupB.workingDays.toFinset ∧
    settingsDupA.expectedMinutesPerDay = settingsDupB.expectedMinutesPerDay ∧
    settingsDupA.weekStartsOn = settingsDupB.weekStartsOn ∧
    settingsDupA.nonWorkingDayDisplay = settingsDupB.nonWorkingDayDisplay ∧
    settingsDupA.nonWorkingDayRate = settingsDupB.nonWorkingDayRate ∧
    detectSettingsConflict settingsDupA settingsDupB =
      some { localSettings := settingsDupA, remoteSettings := settingsDupB } :=
  ⟨by decide, rfl, rfl, rfl, rfl, rfl⟩

/-- C5 (amended): `detectSettingsConflict` returns `null` iff the two
settings agree on workingDays as multisets (equal sorted copies, which
coincides with set-equality when each side lists distinct days) and exactly
on every other field; any mismatch yields a SettingsConflict carrying both
full snapshots, never a field-level merge. -/
theorem c5_theorem (s1 s2 : Settings) :
    (detectSettingsConflict s1 s2 = none ↔
      (s1.workingDays.Perm s2.workingDays ∧
        s1.expectedMinutesPerDay = s2.expectedMinutesPerDay ∧
        s1.weekStartsOn = s2.weekStartsOn ∧
        s1.nonWorkingDayDisplay = s2.nonWorkingDayDisplay ∧
        s1.nonWorkingDayRate = s2.nonWorkingDayRate)) ∧
    (detectSettingsConflict s1 s2 ≠ none →
      detectSettingsConflict s1 s2 =
        some { localSettings := s1, remoteSettings := s2 }) := by
  constructor
  · rw [← settingsAreEqual_iff]
    unfold detectSettingsConflict
    cases h : settingsAreEqual s1 s2 <;> simp [h]
  · intro hne
    unfold detectSettingsConflict at hne ⊢
    cases h : settingsAreEqual s1 s2 <;> simp [h] at hne ⊢

/-- C5 witness: the amended theorem applied to the duplicate-day pair. -/
theorem c5_witness :
    detectSettingsConflict settingsDupA settingsDupB =
      some { localSettings := settingsDupA, remoteSettings := settingsDupB } :=
  (c5_theorem settingsDupA settingsDupB).2 (by decide)

/-! ## Claim C6 -/

/-- C6: `validateSyncPayload` rejects every payload whose entries record
contains the key `"__proto__"`; every payload with 10,001 entry keys; every
payload containing a day entry with break minutes −5; and every payload
whose settings have `weekStartsOn = 2`. -/
theorem c6_theorem :
    (∀ p : JSVal, "__proto__" ∈ jsKeys (getProp p "entries") →
      validateSyncPayload p = false) ∧
    (∀ p : JSVal, (jsKeys (getProp p "entries")).length = 10001 →
      validateSyncPayload p = false) ∧
    (∀ (p : JSVal) (key : String), key ∈ jsKeys (getProp p "entries") →
      getProp (getProp (getProp p "entries") key) "breakMinutes" =
        JSVal.vNum (-5) →
      validateSyncPayload p = false) ∧
    (∀ p : JSVal, getProp (getProp p "settings") "weekStartsOn" = JSVal.vNum 2 →
      validateSyncPayload p = false) := by
  refine ⟨?_, ?_, ?_, ?_⟩
  · intro p hmem
    rcases Bool.eq_false_or_eq_true (validateSyncPayload p) with hv | hv
    swap
    · exact hv
    · have hk := ((validateSyncPayload_parts hv).2.1 _ hmem).1
      exact absurd (by decide : "__proto__" ∈ blockedKeys) hk
  · intro p hlen
    rcases Bool.eq_false_or_eq_true (validateSyncPayload p) with hv | hv
    swap
    · exact hv
    · have hle := (validateSyncPayload_parts hv).1
      rw [hlen] at hle
      exact absurd hle (by decide)
  · intro p key hmem hbm
    rcases Bool.eq_false_or_eq_true (validateSyncPayload p) with hv | hv
    swap
    · exact hv
    · have he := ((validateSyncPayload_parts hv).2.1 _ hmem).2.2
      have hnn := isValidDayEntry_breakMinutes he hbm
      exact absurd hnn (by decide)
  · intro p hw
    rcases Bool.eq_false_or_eq_true (validateSyncPayload p) with hv | hv
    swap
    · exact hv
    · have hs := isValidSettings_weekStartsOn (validateSyncPayload_parts hv).2.2 hw
      rcases hs with h | h <;> exact absurd h (by decide)

def protoPayload : JSVal :=
  JSVal.vObj [("entries", JSVal.vObj [("__proto__", JSVal.vNull)]),
    ("adjustments", JSVal.vArr []), ("settings", JSVal.vNull),
    ("timestamp", JSVal.vNum 0)]

def bigPayload : JSVal :=
  JSVal.vObj [("entries",
    JSVal.vObj (List.replicate 10001 ("2024-01-01", JSVal.vNull)))]

def negBreakPayload : JSVal :=
  JSVal.vObj [("entries", JSVal.vObj [("2024-01-10",
    JSVal.vObj [("breakMinutes", JSVal.vNum (-5))])])]

def weekStartPayload : JSVal :=
  JSVal.vObj [("settings", JSVal.vObj [("weekStartsOn", JSVal.vNum 2)])]

/-- C6 witness: the four rejection facts applied to concrete payloads. -/
theorem c6_witness :
    validateSyncPayload protoPayload = false ∧
    validateSyncPayload bigPayload = false ∧
    validateSyncPayload negBreakPayload = false ∧
    validateSyncPayload weekStartPayload = false := by
  refine ⟨c6_theorem.1 protoPayload (by decide), c6_theorem.2.1 bigPayload ?_,
    c6_theorem.2.2.1 negBreakPayload "2024-01-10" (by decide) rfl,
    c6_theorem.2.2.2 weekStartPayload rfl⟩
  show (jsKeys (getProp bigPayload "entries")).length = 10001
  show ((List.replicate 10001 ("2024-01-01", JSVal.vNull)).map Prod.fst).length = 10001
  rw [List.length_map, List.length_replicate]

/-! ## Claim C7 -/

/-- C7: for every date outside the conflict set, `mergeNonConflicting` keeps
the non-empty side when exactly one side is non-empty (whichever side that
is), omits the date entirely when both sides are empty, and keeps the common
entry when both sides are non-empty and equal. -/
theorem c7_theorem (localEntries remoteEntries : EntryMap)
    (conflicts : List ConflictEntry) (d : String)
    (hd : d ∉ conflicts.map (fun c => c.date)) :
    (entryIsEmpty (lookupEntry localEntries d) = false ∧
        entryIsEmpty (lookupEntry remoteEntries d) = true →
      lookupEntry (mergeNonConflicting localEntries remoteEntries conflicts) d =
        lookupEntry localEntries d) ∧
    (entryIsEmpty (lookupEntry localEntries d) = true ∧
        entryIsEmpty (lookupEntry remoteEntries d) = false →
      lookupEntry (mergeNonConflicting localEntries remoteEntries conflicts) d =
        lookupEntry remoteEntries d) ∧
    (entryIsEmpty (lookupEntry localEntries d) = true ∧
        entryIsEmpty (lookupEntry remoteEntries d) = true →
      lookupEntry (mergeNonConflicting localEntries remoteEntries conflicts) d =
        none) ∧
    (entryIsEmpty (lookupEntry localEntries d) = false ∧
        entryIsEmpty (lookupEntry remoteEntries d) = false →
      lookupEntry localEntries d = lookupEntry remoteEntries d →
      lookupEntry (mergeNonConflicting localEntries remoteEntries conflicts) d =
        lookupEntry localEntries d) := by
  have hlm : lookupEntry (mergeNonConflicting localEntries remoteEntries conflicts) d =
      if d ∈ allDates localEntries remoteEntries then
        mergedEntryAt localEntries remoteEntries (conflicts.map (fun c => c.date)) d
      else none := by
    unfold mergeNonConflicting
    exact lookupEntry_filterMap _ _ (dedupFirst_nodup _) d
  have hmeml : entryIsEmpty (lookupEntry localEntries d) = false →
      d ∈ allDates localEntries remoteEntries := by
    intro h1
    cases hle : lookupEntry localEntries d with
    | none => rw [hle] at h1; simp [entryIsEmpty] at h1
    | some e =>
      exact (allDates_mem _ _ _).2 (Or.inl (mem_of_lookupEntry_eq_some hle))
  have hmemr : entryIsEmpty (lookupEntry remoteEntries d) = false →
      d ∈ allDates localEntries remoteEntries := by
    intro h2
    cases hre : lookupEntry remoteEntries d with
    | none => rw [hre] at h2; simp [entryIsEmpty] at h2
    | some e =>
      exact (allDates_mem _ _ _).2 (Or.inr (mem_of_lookupEntry_eq_some hre))
  refine ⟨?_, ?_, ?_, ?_⟩
  · rintro ⟨h1, h2⟩
    rw [hlm, if_pos (hmeml h1)]
    simp [mergedEntryAt, hd, h1, h2]
  · rintro ⟨h1, h2⟩
    rw [hlm, if_pos (hmemr h2)]
    simp [mergedEntryAt, hd, h1, h2]
  · rintro ⟨h1, h2⟩
    rw [hlm]
    by_cases hmem : d ∈ allDates localEntries remoteEntries
    · rw [if_pos hmem]
      simp [mergedEntryAt, hd, h1, h2]
    · rw [if_neg hmem]
  · rintro ⟨h1, h2⟩ heq
    rw [hlm, if_pos (hmeml h1)]
    simp [mergedEntryAt, hd, h1, h2]

def c7Local : EntryMap :=
  [("2024-01-01", { startTime := some "09:00" }),
   ("2024-01-03", {}),
   ("2024-01-04", { startTime := some "08:00" })]

def c7Remote : EntryMap :=
  [("2024-01-02", { endTime := some "17:00" }),
   ("2024-01-03", {}),
   ("2024-01-04", { startTime := some "08:00" })]

/-- C7 witness: each of the four merge cases at a concrete pair of maps —
a local-only date, a remote-only date, a date empty on both sides (present
but with all fields defaulted), and a date equal and non-empty on both. -/
theorem c7_witness :
    lookupEntry (mergeNonConflicting c7Local c7Remote []) "2024-01-01" =
      lookupEntry c7Local "2024-01-01" ∧
    lookupEntry (mergeNonConflicting c7Local c7Remote []) "2024-01-02" =
      lookupEntry c7Remote "2024-01-02" ∧
    lookupEntry (mergeNonConflicting c7Local c7Remote []) "2024-01-03" = none ∧
    lookupEntry (mergeNonConflicting c7Local c7Remote []) "2024-01-04" =
      lookupEntry c7Local "2024-01-04" :=
  ⟨(c7_theorem c7Local c7Remote [] "2024-01-01" (by decide)).1 (by decide),
    (c7_theorem c7Local c7Remote [] "2024-01-02" (by decide)).2.1 (by decide),
    (c7_theorem c7Local c7Remote [] "2024-01-03" (by decide)).2.2.1 (by decide),
    (c7_theorem c7Local c7Remote [] "2024-01-04" (by decide)).2.2.2 (by decide) rfl⟩

/-! ## Claim C8 -/

/-- Swapping the local/remote labels of a conflict entry. -/
def swapConflict (c : ConflictEntry) : ConflictEntry :=
  { date := c.date, localEntry := c.remoteEntry, remoteEntry := c.localEntry }

def c8Local : EntryMap :=
  [("2024-01-01", { startTime := some "09:00" }),
   ("2024-01-02", { startTime := some "10:00" })]

def c8Remote : EntryMap :=
  [("2024-01-02", { startTime := some "11:00" }),
   ("2024-01-01", { startTime := some "12:00" })]

/-- C8 counterexample: two maps listing the same two conflicting dates in
opposite key orders — the two conflict lists hold the same conflicts but in
different orders, so they are not equal (even after swapping labels). -/
theorem c8_counterexample :
    detectConflicts c8Local c8Remote ≠
      (detectConflicts c8Remote c8Local).map swapConflict := by decide

/-- C8 (amended): `detectConflicts` is symmetric up to swapping the
local/remote labels and up to order — `detectConflicts(A,B)` is a
permutation of the label-swapped `detectConflicts(B,A)`; iteration order of
the key union makes list equality fail in general. -/
theorem c8_theorem (a b : EntryMap) :
    (detectConflicts a b).Perm ((detectConflicts b a).map swapConflict) := by
  have hpt : ∀ d, (conflictAt b a d).map swapConflict = conflictAt a b d := by
    intro d
    unfold conflictAt
    cases h1 : lookupEntry a d <;> cases h2 : lookupEntry b d <;> simp
    rename_i la rb
    rw [entriesAreEqual_symm rb la]
    cases hc : (decide (entryIsEmpty (some rb) = false) &&
        (decide (entryIsEmpty (some la) = false) &&
          decide (entriesAreEqual la rb = false))) <;>
      cases hE1 : entryIsEmpty (some la) <;> cases hE2 : entryIsEmpty (some rb) <;>
        cases hq : entriesAreEqual la rb <;>
          simp_all [swapConflict]
  have h2 : (detectConflicts b a).map swapConflict =
      (allDates b a).filterMap (conflictAt a b) := by
    unfold detectConflicts
    rw [List.map_filterMap]
    exact List.filterMap_congr (fun d _ => hpt d)
  rw [h2]
  exact List.Perm.filterMap _ (allDates_perm_comm a b)

/-! ## Claim C9 -/

/-- C9: with globally unique ids on each side, `mergeAdjustments` returns
exactly one adjustment per id appearing in either input — the local copy
when the id is on both sides, the sole copy otherwise — sorted ascending by
date, and merging a list with itself is a permutation of that list (one
copy per id, sorted). -/
theorem c9_theorem (localAdj remoteAdj : List Adjustment)
    (hl : (localAdj.map Adjustment.id).Nodup)
    (hr : (remoteAdj.map Adjustment.id).Nodup) :
    ((mergeAdjustments localAdj remoteAdj).map Adjustment.id).Nodup ∧
    (∀ a, a ∈ mergeAdjustments localAdj remoteAdj ↔
      (a ∈ localAdj ∨ (a ∈ remoteAdj ∧ a.id ∉ localAdj.map Adjustment.id))) ∧
    (mergeAdjustments localAdj remoteAdj).Pairwise dateLe ∧
    (mergeAdjustments localAdj localAdj).Perm localAdj := by
  have hbase := mergeAdjustments_eq localAdj remoteAdj hl hr
  have hperm : (mergeAdjustments localAdj remoteAdj).Perm
      (localAdj ++ remoteAdj.filter
        (fun a => decide (a.id ∉ localAdj.map Adjustment.id))) := by
    rw [hbase]
    exact List.perm_insertionSort dateLe _
  refine ⟨?_, ?_, ?_, ?_⟩
  · have hids : ((localAdj ++ remoteAdj.filter
        (fun a => decide (a.id ∉ localAdj.map Adjustment.id))).map
          Adjustment.id).Nodup := by
      rw [List.map_append]
      rw [List.nodup_append]
      refine ⟨hl, ?_, ?_⟩
      · exact ((List.filter_sublist remoteAdj).map Adjustment.id).nodup hr
      · intro x hx1 hx2
        obtain ⟨bAdj, hb, hbid⟩ := List.mem_map.1 hx2
        have hpred := List.of_mem_filter hb
        simp only [decide_eq_true_eq] at hpred
        exact hpred (hbid ▸ hx1)
    exact ((hperm.map Adjustment.id).nodup_iff).2 hids
  · intro a
    rw [hperm.mem_iff]
    simp [List.mem_filter]
  · rw [hbase]
    exact List.sorted_insertionSort dateLe _
  · have hbase2 := mergeAdjustments_eq localAdj localAdj hl hl
    have hfilter : localAdj.filter
        (fun a => decide (a.id ∉ localAdj.map Adjustment.id)) = [] := by
      rw [List.filter_eq_nil_iff]
      intro a ha
      simp [List.mem_map_of_mem Adjustment.id ha]
    rw [hbase2, hfilter, List.append_nil]
    exact List.perm_insertionSort dateLe localAdj

def c9Local : List Adjustment :=
  [{ id := "a", date := "2024-01-02", minutes := 10, note := "tick" }]

def c9Remote : List Adjustment :=
  [{ id := "a", date := "2024-01-03", minutes := 5, note := "tock" },
   { id := "b", date := "2024-01-01", minutes := 3, note := "toll" }]

/-- C9 witness: the theorem applied to a concrete pair where id "a" exists
on both sides (local copy must win) and id "b" only remotely. -/
theorem c9_witness :
    ((mergeAdjustments c9Local c9Remote).map Adjustment.id).Nodup ∧
    (∀ a, a ∈ mergeAdjustments c9Local c9Remote ↔
      (a ∈ c9Local ∨ (a ∈ c9Remote ∧ a.id ∉ c9Local.map Adjustment.id))) ∧
    (mergeAdjustments c9Local c9Remote).Pairwise dateLe ∧
    (mergeAdjustments c9Local c9Local).Perm c9Local :=
  c9_theorem c9Local c9Remote (by decide) (by decide)

/-! ## Claim C10 -/

/-- C10: a sync message arriving while the incoming connection is pending is
buffered; `rejectConnection` leaves the buffer (and the acceptance flag)
untouched, so the stale message survives the rejection, and the
`acceptConnection` for a later incoming connection replays the buffered
message of the previously rejected peer through `processIncomingData`. -/
theorem c10_theorem (lp : SyncPayload) (st : SessionState) (m : JSVal)
    (c1 c2 : Nat) (hacc : st.connectionAccepted = false)
    (hm : isSyncMessage m = true) :
    (rejectConnection
        (hostOnData lp (hostOnConnection st c1) m c1).state).pendingData =
      some (m, c1) ∧
    (acceptConnection lp
        (hostOnConnection
          (rejectConnection (hostOnData lp (hostOnConnection st c1) m c1).state)
          c2)).state.processed = st.processed ++ [(m, c1)] ∧
    (acceptConnection lp
        (hostOnConnection
          (rejectConnection (hostOnData lp (hostOnConnection st c1) m c1).state)
          c2)).state.pendingData = none := by
  have hbuf : (hostOnData lp (hostOnConnection st c1) m c1).state =
      { hostOnConnection st c1 with pendingData := some (m, c1) } := by
    unfold hostOnData
    simp [hm, hostOnConnection, hacc]
  have hs3 : hostOnConnection (rejectConnection
      (hostOnData lp (hostOnConnection st c1) m c1).state) c2 =
      { st with status := SyncStatus.awaitingAcceptance, pendingConnection := some c2, pendingData := some (m, c1) } := by
    rw [hbuf]
    rfl
  have hrefs := processIncomingData_refs lp
    { st with status := SyncStatus.syncingEntries, pendingConnection := none, pendingData := some (m, c1), connectionAccepted := true, activeConnection := some c2 } m
  refine ⟨?_, ?_, ?_⟩
  · rw [hbuf]; rfl
  · rw [hs3]
    unfold acceptConnection
    simp only []
    rw [hrefs.1]
  · rw [hs3]
    unfold acceptConnection
    simp only []

def completeMsg : JSVal := JSVal.vObj [("type", JSVal.vStr "SYNC_COMPLETE")]

def hostState : SessionState := { status := SyncStatus.hosting }

/-- C10 witness: the theorem applied to a concrete hosting session, a
buffered `SYNC_COMPLETE` from connection 1 (later rejected) and a fresh
connection 2 (later accepted). -/
theorem c10_witness :
    (rejectConnection (hostOnData examplePayload (hostOnConnection hostState 1)
        completeMsg 1).state).pendingData = some (completeMsg, 1) ∧
    (acceptConnection examplePayload (hostOnConnection (rejectConnection
        (hostOnData examplePayload (hostOnConnection hostState 1)
          completeMsg 1).state) 2)).state.processed =
      hostState.processed ++ [(completeMsg, 1)] ∧
    (acceptConnection examplePayload (hostOnConnection (rejectConnection
        (hostOnData examplePayload (hostOnConnection hostState 1)
          completeMsg 1).state) 2)).state.pendingData = none :=
  c10_theorem examplePayload hostState completeMsg 1 2 rfl (by decide)

end FlexiTracker
